import Mathlib

/-!
Verification of the JWT authentication middleware (`auth_jwt.go`).

The Go source is shallowly embedded: each handler becomes a pure Lean
function over explicit inputs (configuration, clock reading, decoded
request data).  `time.Now()` is modelled by an explicit `now : Int`
parameter (Unix seconds); durations (`time.Duration` fields `Timeout`,
`MaxRefresh`) are modelled in seconds.  A Go runtime panic (a failed
type assertion such as `x.(string)`, which aborts the handler) is an
explicit `panicked` outcome.  The external JWT library (`jwt-go`) and
response writer (`go-json-rest`) are collaborators outside the
repository; their behaviour is modelled from the spec where noted.
-/

namespace AuthJWT

/-- A decoded JWT claim value, as produced by JSON decoding in Go:
strings stay strings, JSON numbers decode to `float64` (here `Int`,
since all values used are Unix seconds), and a `nil` interface value
(absent lookup stored back into a map) is `null`. -/
inductive ClaimValue where
  | str (s : String)
  | num (n : Int)
  | null
  deriving DecidableEq, Repr

/-- The claim map `token.Claims` (Go `map[string]interface{}`),
modelled as an association list. -/
abbrev Claims := List (String × ClaimValue)

/-- Association-list lookup (Go map read `m[k]`, `none` = absent). -/
def alGet {α : Type} : List (String × α) → String → Option α
  | [], _ => none
  | (k, v) :: rest, key => if k = key then some v else alGet rest key

/-- Association-list update (Go map write `m[k] = v`). -/
def alSet {α : Type} : List (String × α) → String → α → List (String × α)
  | [], key, v => [(key, v)]
  | (k, w) :: rest, key, v =>
      if k = key then (key, v) :: rest else (k, w) :: alSet rest key v

/-- A signed token.  The wire format (three base64url segments) and the
HMAC primitive live in the external `jwt-go` library; the signature is
abstracted as recording the key the token was signed with, and
verification compares that key with the expected one (a perfect-MAC
assumption: a signature verifies under `key` exactly when it was
produced with `key`). -/
structure SignedToken where
  alg : String
  claims : Claims
  sigKey : List Nat
  deriving DecidableEq, Repr

/-- Verification errors (§7 error taxonomy, request-time kinds). -/
inductive VerifyError where
  | missingOrMalformedHeader
  | invalidSignature
  | expired
  | malformed
  deriving DecidableEq, Repr

/-- Modelled from the spec: `Verify(tokenString, key)` of the external
`jwt-go` library (`jwt.Parse`), §4.2: signature mismatch ⇒
`InvalidSignature`; `exp` must be present and numeric, else
`Malformed`; current time ≥ `expiresAt` ⇒ `Expired`. -/
def jwtVerify (key : List Nat) (now : Int) (t : SignedToken) :
    Except VerifyError Claims :=
  if t.sigKey ≠ key then .error .invalidSignature
  else
    match alGet t.claims "exp" with
    | some (.num e) => if now ≥ e then .error .expired else .ok t.claims
    | _ => .error .malformed

/-- Go `strings.SplitN(s, " ", 2)` splits at the first space only:
this helper finds that first space, returning the characters before
and after it (`none` when the string has no space). -/
def splitFirstSpace : List Char → Option (List Char × List Char)
  | [] => none
  | c :: rest =>
      if c = ' ' then some ([], rest)
      else
        match splitFirstSpace rest with
        | none => none
        | some (a, b) => some (c :: a, b)

/-- Go `strings.SplitN(s, " ", 2)`: at most two parts, the second part
keeps any further spaces. -/
def splitN2Space (s : String) : List String :=
  match splitFirstSpace s.data with
  | none => [s]
  | some (a, b) => [String.mk a, String.mk b]

/-- Go `strings.Split(s, " ")` (unbounded): used only to state how
many space-separated tokens a header value has. -/
def splitSpaces : List Char → List (List Char)
  | [] => [[]]
  | c :: rest =>
      match splitSpaces rest with
      | [] => [[]]
      | t :: ts => if c = ' ' then [] :: t :: ts else (c :: t) :: ts

/-- The space-separated tokens of a string. -/
def spaceTokens (s : String) : List String :=
  (splitSpaces s.data).map String.mk

/-- The header-extraction step of `parseToken` (auth_jwt.go:138-146):
empty header rejected; `strings.SplitN(authHeader, " ", 2)` must give
exactly two parts with the first literally `"Bearer"`; the second part
is the candidate token string. -/
def extractBearer (authHeader : String) : Option String :=
  if authHeader = "" then none
  else
    match splitN2Space authHeader with
    | [scheme, credential] =>
        if scheme = "Bearer" then some credential else none
    | _ => none

/-- `parseToken(request, key)` (auth_jwt.go:136-151): header
extraction, then `jwt.Parse` on the candidate token string.  `decode`
maps a candidate token string to its structural decoding (`none` =
structurally malformed wire format). -/
def parseToken (decode : String → Option SignedToken) (key : List Nat)
    (now : Int) (authHeader : String) : Except VerifyError Claims :=
  match extractBearer authHeader with
  | none => .error .missingOrMalformedHeader
  | some credential =>
      match decode credential with
      | none => .error .malformed
      | some tok => jwtVerify key now tok

/-- An incoming request: its authorization header value and its
per-request environment `request.Env` (the only value written is the
string identity under `"REMOTE_USER"`). -/
structure Request where
  authHeader : String
  env : List (String × String)
  deriving DecidableEq, Repr

/-- The `JWTMiddleware` configuration struct.  `Key []byte` is
`Option (List Nat)` (Go distinguishes a `nil` slice from a present
one); the two callbacks are `Option`s of functions (`nil` function
values).  Durations are in seconds. -/
structure JWTMiddleware where
  realm : String
  signingAlgorithm : String
  key : Option (List Nat)
  timeout : Int
  maxRefresh : Int
  authenticator : Option (String → String → Bool)
  authorizator : Option (String → Request → Bool)
  needPrompt : Bool

/-- Outcome of `MiddlewareFunc` (auth_jwt.go:53-77): `log.Fatal`
(which terminates the process before any request is served) on a
missing required field, otherwise the configuration with the optional
fields defaulted. -/
inductive SetupResult where
  | fatal (msg : String)
  | ok (mw : JWTMiddleware)

/-- Whether setup aborted the process. -/
def SetupResult.isFatal : SetupResult → Bool
  | .fatal _ => true
  | .ok _ => false

/-- `MiddlewareFunc` validation and defaulting (auth_jwt.go:53-77), in
source order: `Realm` required; `SigningAlgorithm` defaults to
`"HS256"`; `Key` required; `Timeout` defaults to one hour;
`Authenticator` required; `Authorizator` defaults to always-true. -/
def middlewareFunc (mw : JWTMiddleware) : SetupResult :=
  if mw.realm = "" then .fatal "Realm is required"
  else
    let mw1 := if mw.signingAlgorithm = "" then
                 { mw with signingAlgorithm := "HS256" } else mw
    if mw1.key.isNone then .fatal "Key required"
    else
      let mw2 := if mw1.timeout = 0 then { mw1 with timeout := 3600 } else mw1
      if mw2.authenticator.isNone then .fatal "Authenticator is required"
      else
        let mw3 := if mw2.authorizator.isNone then
                     { mw2 with authorizator := some (fun _ _ => true) } else mw2
        .ok mw3

/-- Outcome of one pass of the middleware over a request.
`handled id` means the wrapped handler was invoked with identity `id`
attached; `panicked` is a Go runtime panic (failed type assertion). -/
inductive MWOutcome where
  | unauthorized
  | panicked
  | handled (id : String)
  deriving DecidableEq, Repr

/-- `middlewareImpl` (auth_jwt.go:79-96): parse+verify the token; on
error the unauthorized response; then the unchecked type assertion
`token.Claims["id"].(string)` (panics when `id` is absent or not a
string); then the authorizator (defaulted by `MiddlewareFunc` when
`nil`); on success set `request.Env["REMOTE_USER"]` and call the
wrapped handler.  Returns the outcome and the (possibly updated)
request. -/
def middlewareImpl (decode : String → Option SignedToken)
    (mw : JWTMiddleware) (now : Int) (req : Request) :
    MWOutcome × Request :=
  match parseToken decode (mw.key.getD []) now req.authHeader with
  | .error _ => (.unauthorized, req)
  | .ok claims =>
      match alGet claims "id" with
      | some (.str id) =>
          if (mw.authorizator.getD (fun _ _ => true)) id req then
            (.handled id, { req with env := alSet req.env "REMOTE_USER" id })
          else (.unauthorized, req)
      | _ => (.panicked, req)

/-- The per-request step over the full server state (shared
configuration plus the request), for stating that a request mutates
only its own request and never the configuration. -/
def middlewareStep (decode : String → Option SignedToken) (now : Int)
    (st : JWTMiddleware × Request) :
    (JWTMiddleware × Request) × MWOutcome :=
  let out := middlewareImpl decode st.1 now st.2
  ((st.1, out.2), out.1)

/-- The decoded JSON login payload (auth_jwt.go:98-101). -/
structure LoginVals where
  username : String
  password : String
  deriving DecidableEq, Repr

/-- Result of `LoginHandler` / `RefreshHandler`: the unauthorized
response, a `{"token": ...}` reply (carrying the minted token), or a
Go runtime panic. -/
inductive HandlerResult where
  | unauthorized
  | tokenResponse (t : SignedToken)
  | panicked
  deriving DecidableEq, Repr

/-- `LoginHandler` (auth_jwt.go:106-134): `payload = none` models a
JSON decoding error; `nil` authenticator is a Go nil-function-call
panic; on success mint a token with claims `id`, `exp = now+Timeout`,
and `orig_iat = now` only when `MaxRefresh ≠ 0`, signed with the
configured key. -/
def loginHandler (mw : JWTMiddleware) (now : Int)
    (payload : Option LoginVals) : HandlerResult :=
  match payload with
  | none => .unauthorized
  | some lv =>
      match mw.authenticator with
      | none => .panicked
      | some auth =>
          if !auth lv.username lv.password then .unauthorized
          else
            let c1 := alSet [] "id" (ClaimValue.str lv.username)
            let c2 := alSet c1 "exp" (ClaimValue.num (now + mw.timeout))
            let c3 := if mw.maxRefresh ≠ 0 then
                        alSet c2 "orig_iat" (ClaimValue.num now) else c2
            .tokenResponse
              { alg := mw.signingAlgorithm, claims := c3,
                sigKey := mw.key.getD [] }

/-- The body of `RefreshHandler` after `parseToken` succeeded
(auth_jwt.go:169-187): the unchecked cast
`int64(token.Claims["orig_iat"].(float64))` (panics when `orig_iat`
is absent or not numeric); the sliding-window check
`origIat < time.Now().Add(-mw.MaxRefresh).Unix()`; then mint a new
token copying `id`, with `exp = now+Timeout` and `orig_iat`
carried forward unchanged. -/
def refreshWithClaims (mw : JWTMiddleware) (now : Int)
    (claims : Claims) : HandlerResult :=
  match alGet claims "orig_iat" with
  | some (.num origIat) =>
      if origIat < now - mw.maxRefresh then .unauthorized
      else
        let c1 := alSet [] "id" ((alGet claims "id").getD ClaimValue.null)
        let c2 := alSet c1 "exp" (ClaimValue.num (now + mw.timeout))
        let c3 := alSet c2 "orig_iat" (ClaimValue.num origIat)
        .tokenResponse
          { alg := mw.signingAlgorithm, claims := c3,
            sigKey := mw.key.getD [] }
  | _ => .panicked

/-- `RefreshHandler` (auth_jwt.go:160-188): re-verify the presented
token, then refresh. -/
def refreshHandler (decode : String → Option SignedToken)
    (mw : JWTMiddleware) (now : Int) (authHeader : String) :
    HandlerResult :=
  match parseToken decode (mw.key.getD []) now authHeader with
  | .error _ => .unauthorized
  | .ok claims => refreshWithClaims mw now claims

/-- An HTTP response as far as this middleware shapes one: headers it
sets, the status code, and the JSON object body. -/
structure Response where
  headers : List (String × String)
  status : Nat
  body : List (String × String)
  deriving DecidableEq, Repr

/-- `unauthorized` (auth_jwt.go:190-197).  Prompt mode sets
`WWW-Authenticate` to `"Basic realm=" + mw.Realm` and calls
`rest.Error(writer, "Not Authorized", 401)`.  Silent mode calls
`writer.WriteJson` on `map[string]string{"Error": "Not Authorized"}`.
Modelled from the spec: the external `go-json-rest` writer renders
`rest.Error` as the given status with body `{"Error": <msg>}`, and
`WriteJson` without an explicit status as the transport default
`200`. -/
def unauthorizedResponse (mw : JWTMiddleware) : Response :=
  if mw.needPrompt then
    { headers := [("WWW-Authenticate", "Basic realm=" ++ mw.realm)],
      status := 401,
      body := [("Error", "Not Authorized")] }
  else
    { headers := [], status := 200, body := [("Error", "Not Authorized")] }

/-! Concrete fixtures used to instantiate the theorems below. -/

/-- A fully populated configuration. -/
def mwEx : JWTMiddleware :=
  { realm := "testrealm", signingAlgorithm := "HS256", key := some [1, 2, 3],
    timeout := 3600, maxRefresh := 60,
    authenticator := some (fun u p => u = "admin" && p = "secret"),
    authorizator := some (fun _ _ => true), needPrompt := false }

/-- `mwEx` with refresh disabled (`MaxRefresh = 0`). -/
def mwNoRefresh : JWTMiddleware := { mwEx with maxRefresh := 0 }

/-- `mwEx` in prompt mode. -/
def mwPrompt : JWTMiddleware := { mwEx with needPrompt := true }

/-- `mwEx` with a `nil` signing key. -/
def mwNoKey : JWTMiddleware := { mwEx with key := none }

/-- A token that verifies under key `[1, 2, 3]`, is unexpired at any
`now < 9999`, and carries no `id` claim. -/
def tokNoId : SignedToken :=
  { alg := "HS256", claims := [("exp", ClaimValue.num 9999)], sigKey := [1, 2, 3] }

/-- A wire decoder knowing the single token string `"tok"`. -/
def decodeEx : String → Option SignedToken :=
  fun s => if s = "tok" then some tokNoId else none

/-- Decoded claims at the refresh-window boundary for `mwEx` at
`now = 100`: `orig_iat = 40 = 100 − 60`. -/
def claimsEx : Claims :=
  [("id", ClaimValue.str "admin"), ("exp", ClaimValue.num 200),
   ("orig_iat", ClaimValue.num 40)]

/-! Helper lemmas about the association list and the header split. -/

theorem alGet_alSet_same {α : Type} (l : List (String × α)) (k : String) (v : α) :
    alGet (alSet l k v) k = some v := by
  induction l with
  | nil => simp [alGet, alSet]
  | cons hd tl ih =>
      obtain ⟨k', w⟩ := hd
      by_cases h : k' = k
      · subst h
        simp [alGet, alSet]
      · simp [alGet, alSet, h, ih]

theorem alGet_alSet_other {α : Type} (l : List (String × α)) (k k' : String)
    (v : α) (h : k' ≠ k) : alGet (alSet l k v) k' = alGet l k' := by
  induction l with
  | nil => simp [alGet, alSet, Ne.symm h]
  | cons hd tl ih =>
      obtain ⟨k0, w⟩ := hd
      by_cases h0 : k0 = k
      · subst h0
        simp [alGet, alSet, Ne.symm h]
      · simp only [alSet, if_neg h0, alGet]
        by_cases h1 : k0 = k'
        · simp [h1]
        · simp [h1, ih]

theorem splitFirstSpace_sound (cs : List Char) :
    ∀ a b, splitFirstSpace cs = some (a, b) → cs = a ++ ' ' :: b ∧ ' ' ∉ a := by
  induction cs with
  | nil => intro a b h; simp [splitFirstSpace] at h
  | cons c rest ih =>
      intro a b h
      rw [splitFirstSpace] at h
      by_cases hc : c = ' '
      · rw [if_pos hc] at h
        simp only [Option.some.injEq, Prod.mk.injEq] at h
        obtain ⟨rfl, rfl⟩ := h
        subst hc
        simp
      · rw [if_neg hc] at h
        cases hr : splitFirstSpace rest with
        | none => rw [hr] at h; simp at h
        | some p =>
            obtain ⟨a', b'⟩ := p
            rw [hr] at h
            simp only [Option.some.injEq, Prod.mk.injEq] at h
            obtain ⟨h1, h2⟩ := h
            subst h1
            subst h2
            obtain ⟨heq, hmem⟩ := ih a' b' hr
            refine ⟨by simp [heq], ?_⟩
            intro hin
            rcases List.mem_cons.mp hin with hx | hx
            · exact hc hx.symm
            · exact hmem hx

theorem splitFirstSpace_complete (a b : List Char) (ha : ' ' ∉ a) :
    splitFirstSpace (a ++ ' ' :: b) = some (a, b) := by
  induction a with
  | nil => simp [splitFirstSpace]
  | cons c a' ih =>
      have hc : ¬ c = ' ' := by
        intro h
        exact ha (by simp [h])
      have ha' : ' ' ∉ a' := fun h => ha (List.mem_cons_of_mem _ h)
      rw [List.cons_append, splitFirstSpace, if_neg hc, ih ha']

/-- Reduction of `extractBearer` once the first-space split of the
header is known. -/
theorem extractBearer_split (s : String) (a b : List Char)
    (hs : s ≠ "") (hsp : splitFirstSpace s.data = some (a, b)) :
    extractBearer s
      = if String.mk a = "Bearer" then some (String.mk b) else none := by
  simp only [extractBearer, if_neg hs, splitN2Space, hsp]

/-- Characterisation of the extraction step: it yields candidate
`cred` exactly when the header is literally `"Bearer"`, one space, and
then `cred` (which may itself be empty or contain further spaces). -/
theorem extractBearer_eq_some (s cred : String) :
    extractBearer s = some cred ↔ s.data = "Bearer".data ++ ' ' :: cred.data := by
  constructor
  · intro h
    by_cases hs : s = ""
    · rw [extractBearer, if_pos hs] at h; simp at h
    · cases hsp : splitFirstSpace s.data with
      | none =>
          rw [extractBearer, if_neg hs] at h
          simp only [splitN2Space, hsp] at h
          exact Option.noConfusion h
      | some p =>
          obtain ⟨a, b⟩ := p
          rw [extractBearer_split s a b hs hsp] at h
          by_cases hb : String.mk a = "Bearer"
          · rw [if_pos hb] at h
            simp only [Option.some.injEq] at h
            obtain ⟨heq, _⟩ := splitFirstSpace_sound s.data a b hsp
            have hadata : a = "Bearer".data := congrArg String.data hb
            have hbdata : b = cred.data := congrArg String.data h
            rw [heq, hadata, hbdata]
          · rw [if_neg hb] at h; simp at h
  · intro h
    have hs : s ≠ "" := by
      intro hnil
      rw [hnil] at h
      exact absurd h.symm (by simp)
    have hsp : splitFirstSpace s.data = some ("Bearer".data, cred.data) := by
      rw [h]
      exact splitFirstSpace_complete _ _ (by decide)
    rw [extractBearer_split s _ _ hs hsp]
    simp

/-- Verification succeeds on a token signed with the expected key
whose `exp` claim is numeric and still in the future. -/
theorem jwtVerify_ok (key : List Nat) (now : Int) (t : SignedToken)
    (hsig : t.sigKey = key) (e : Int)
    (hexp : alGet t.claims "exp" = some (ClaimValue.num e)) (hlt : now < e) :
    jwtVerify key now t = .ok t.claims := by
  have hgt : ¬ now ≥ e := by omega
  simp [jwtVerify, hsig, hexp, hgt]

/-! Claim theorems. -/

/-- C1 (code evaluated at the failing input): a request carrying a
token that verifies under the configured key and is unexpired, but
whose claim set has no `id` entry, makes the Auth Gate panic on the
unchecked assertion `token.Claims["id"].(string)` rather than produce
the unauthorized response, contradicting the claim that such a
request is rejected as `Malformed`. -/
theorem c1_missing_id_panics :
    jwtVerify [1, 2, 3] 0 tokNoId = .ok [("exp", ClaimValue.num 9999)]
    ∧ alGet tokNoId.claims "id" = none
    ∧ middlewareImpl decodeEx mwEx 0 { authHeader := "Bearer tok", env := [] }
        = (MWOutcome.panicked, { authHeader := "Bearer tok", env := [] }) :=
  ⟨rfl, rfl, rfl⟩

/-- C2: with a verified token whose `orig_iat` is the numeric
`origIat`, the Refresh Handler rejects exactly when
`origIat < now − maxRefresh`; at `origIat = now − maxRefresh` the
refresh is permitted, and attempted one second later it is
rejected. -/
theorem c2_refresh_window (mw : JWTMiddleware) (now origIat : Int)
    (claims : Claims)
    (h : alGet claims "orig_iat" = some (ClaimValue.num origIat)) :
    (refreshWithClaims mw now claims = .unauthorized
        ↔ origIat < now - mw.maxRefresh)
    ∧ (origIat = now - mw.maxRefresh →
        refreshWithClaims mw now claims ≠ .unauthorized)
    ∧ (origIat = now - mw.maxRefresh →
        refreshWithClaims mw (now + 1) claims = .unauthorized) := by
  refine ⟨?_, ?_, ?_⟩
  · by_cases hlt : origIat < now - mw.maxRefresh
    · simp [refreshWithClaims, h, hlt]
    · simp [refreshWithClaims, h, hlt]
  · intro he
    have hlt : ¬ origIat < now - mw.maxRefresh := by omega
    simp [refreshWithClaims, h, hlt]
  · intro he
    have hlt : origIat < now + 1 - mw.maxRefresh := by omega
    simp [refreshWithClaims, h, hlt]

/-- C2 witness: for `mwEx` (`maxRefresh = 60`) and `orig_iat = 40`,
refreshing at `now = 100` (the exact boundary) succeeds and at
`now = 101` is rejected. -/
theorem c2_witness :
    refreshWithClaims mwEx 100 claimsEx ≠ .unauthorized
    ∧ refreshWithClaims mwEx (100 + 1) claimsEx = .unauthorized :=
  ⟨(c2_refresh_window mwEx 100 40 claimsEx rfl).2.1 rfl,
   (c2_refresh_window mwEx 100 40 claimsEx rfl).2.2 rfl⟩

/-- C5 counterexample: the header value `"Bearer a b"` consists of
three space-separated tokens, so the claim requires it to be rejected
as `MissingOrMalformedHeader`; but because `strings.SplitN(_, " ", 2)`
splits at the first space only, extraction succeeds with candidate
`"a b"`. -/
theorem c5_counterexample :
    (spaceTokens "Bearer a b").length = 3
    ∧ extractBearer "Bearer a b" = some "a b" :=
  ⟨rfl, rfl⟩

/-- C5 amended: extraction succeeds exactly when the header is the
literal scheme `"Bearer"`, one space, and then the candidate token
string (which is everything after the first space — possibly empty,
possibly containing further spaces); when extraction fails,
`parseToken` reports `MissingOrMalformedHeader` without consulting
the token decoder, so no signature verification is attempted. -/
theorem c5_bearer_extraction (s cred : String)
    (decode : String → Option SignedToken) (key : List Nat) (now : Int) :
    (extractBearer s = some cred
        ↔ s.data = "Bearer".data ++ ' ' :: cred.data)
    ∧ (extractBearer s = none →
        parseToken decode key now s = .error .missingOrMalformedHeader) := by
  refine ⟨extractBearer_eq_some s cred, ?_⟩
  intro h
  simp [parseToken, h]

/-- C5 witness: a wrong-scheme header is rejected as
`MissingOrMalformedHeader` before the decoder is consulted. -/
theorem c5_witness :
    parseToken decodeEx [1, 2, 3] 0 "Basic xyz"
      = .error .missingOrMalformedHeader :=
  (c5_bearer_extraction "Basic xyz" "xyz" decodeEx [1, 2, 3] 0).2 rfl

/-- C8 counterexample: in prompt mode the code sets the challenge
header to `"Basic realm=" + mw.Realm` with no quotation marks around
the realm, while the claim states the value
`Basic realm="<realm>"`. -/
theorem c8_counterexample :
    unauthorizedResponse mwPrompt
      = { headers := [("WWW-Authenticate", "Basic realm=testrealm")],
          status := 401, body := [("Error", "Not Authorized")] }
    ∧ "Basic realm=testrealm" ≠ "Basic realm=\"testrealm\"" :=
  ⟨rfl, by decide⟩

/-- C8 amended: the unauthorized response depends only on the
`needPrompt` flag: prompt mode sets
`WWW-Authenticate: Basic realm=<realm>` (realm unquoted) and returns
401 with the generic error body; silent mode returns the
success-shaped default 200 with JSON body exactly
`{"Error": "Not Authorized"}`. -/
theorem c8_unauthorized_modes (mw : JWTMiddleware) :
    (mw.needPrompt = true →
      unauthorizedResponse mw
        = { headers := [("WWW-Authenticate", "Basic realm=" ++ mw.realm)],
            status := 401, body := [("Error", "Not Authorized")] })
    ∧ (mw.needPrompt = false →
      unauthorizedResponse mw
        = { headers := [], status := 200,
            body := [("Error", "Not Authorized")] }) := by
  constructor <;> intro h <;> simp [unauthorizedResponse, h]

/-- C8 witness: the two modes evaluated on the concrete
configurations. -/
theorem c8_witness :
    unauthorizedResponse mwPrompt
      = { headers := [("WWW-Authenticate", "Basic realm=" ++ mwPrompt.realm)],
          status := 401, body := [("Error", "Not Authorized")] }
    ∧ unauthorizedResponse mwEx
      = { headers := [], status := 200,
          body := [("Error", "Not Authorized")] } :=
  ⟨(c8_unauthorized_modes mwPrompt).1 rfl, (c8_unauthorized_modes mwEx).2 rfl⟩

/-- C10: a token minted while refresh was disabled
(`MaxRefresh = 0`) carries no `orig_iat` claim, and presenting its
claim set to the Refresh Handler makes the unchecked cast
`token.Claims["orig_iat"].(float64)` panic instead of producing the
unauthorized response; a non-numeric `orig_iat` panics the same
way. -/
theorem c10_refresh_cast_panics :
    loginHandler mwNoRefresh 0 (some ⟨"admin", "secret"⟩)
      = .tokenResponse
          { alg := "HS256",
            claims := [("id", ClaimValue.str "admin"),
                       ("exp", ClaimValue.num 3600)],
            sigKey := [1, 2, 3] }
    ∧ refreshWithClaims mwNoRefresh 0
        [("id", ClaimValue.str "admin"), ("exp", ClaimValue.num 3600)]
      = .panicked
    ∧ refreshWithClaims mwEx 0
        [("id", ClaimValue.str "admin"), ("exp", ClaimValue.num 3600),
         ("orig_iat", ClaimValue.str "soon")]
      = .panicked :=
  ⟨rfl, rfl, rfl⟩

/-- C3: for every non-empty identity and positive timeout, a token
freshly minted by the login path verifies under the same key and
yields the input identity, with expiry equal to the mint-time clock
reading plus the timeout. -/
theorem c3_mint_verify_round_trip (mw : JWTMiddleware) (now : Int)
    (username password : String) (auth : String → String → Bool)
    (k : List Nat)
    (_hu : username ≠ "") (ht : 0 < mw.timeout)
    (hauth : mw.authenticator = some auth)
    (hok : auth username password = true) (hk : mw.key = some k) :
    ∃ tok, loginHandler mw now (some ⟨username, password⟩) = .tokenResponse tok
      ∧ jwtVerify k now tok = .ok tok.claims
      ∧ alGet tok.claims "id" = some (ClaimValue.str username)
      ∧ alGet tok.claims "exp" = some (ClaimValue.num (now + mw.timeout)) := by
  have hexp : ¬ now ≥ now + mw.timeout := by omega
  have hrun : loginHandler mw now (some ⟨username, password⟩)
      = .tokenResponse
          { alg := mw.signingAlgorithm,
            claims :=
              (if mw.maxRefresh ≠ 0 then
                alSet (alSet (alSet [] "id" (ClaimValue.str username)) "exp"
                    (ClaimValue.num (now + mw.timeout)))
                  "orig_iat" (ClaimValue.num now)
              else
                alSet (alSet [] "id" (ClaimValue.str username)) "exp"
                  (ClaimValue.num (now + mw.timeout))),
            sigKey := mw.key.getD [] } := by
    simp [loginHandler, hauth, hok]
  have hexpget :
      alGet ((if mw.maxRefresh ≠ 0 then
          alSet (alSet (alSet [] "id" (ClaimValue.str username)) "exp"
              (ClaimValue.num (now + mw.timeout)))
            "orig_iat" (ClaimValue.num now)
        else
          alSet (alSet [] "id" (ClaimValue.str username)) "exp"
            (ClaimValue.num (now + mw.timeout)))) "exp"
        = some (ClaimValue.num (now + mw.timeout)) := by
    by_cases hm : mw.maxRefresh = 0
    · simp only [hm, ne_eq, not_true_eq_false, if_false]
      exact alGet_alSet_same _ _ _
    · simp only [ne_eq, hm, not_false_eq_true, if_true]
      rw [alGet_alSet_other _ _ _ _ (by decide)]
      exact alGet_alSet_same _ _ _
  have hidget :
      alGet ((if mw.maxRefresh ≠ 0 then
          alSet (alSet (alSet [] "id" (ClaimValue.str username)) "exp"
              (ClaimValue.num (now + mw.timeout)))
            "orig_iat" (ClaimValue.num now)
        else
          alSet (alSet [] "id" (ClaimValue.str username)) "exp"
            (ClaimValue.num (now + mw.timeout)))) "id"
        = some (ClaimValue.str username) := by
    by_cases hm : mw.maxRefresh = 0
    · simp only [hm, ne_eq, not_true_eq_false, if_false]
      rw [alGet_alSet_other _ _ _ _ (by decide)]
      exact alGet_alSet_same _ _ _
    · simp only [ne_eq, hm, not_false_eq_true, if_true]
      rw [alGet_alSet_other _ _ _ _ (by decide),
        alGet_alSet_other _ _ _ _ (by decide)]
      exact alGet_alSet_same _ _ _
  refine ⟨_, hrun, ?_, hidget, hexpget⟩
  exact jwtVerify_ok k now _ (by simp [hk]) (now + mw.timeout) hexpget (by omega)

/-- C3 witness: the round-trip at a concrete configuration, clock
reading and credential pair. -/
theorem c3_witness :
    ∃ tok, loginHandler mwEx 1000 (some ⟨"admin", "secret"⟩)
        = .tokenResponse tok
      ∧ jwtVerify [1, 2, 3] 1000 tok = .ok tok.claims
      ∧ alGet tok.claims "id" = some (ClaimValue.str "admin")
      ∧ alGet tok.claims "exp" = some (ClaimValue.num (1000 + mwEx.timeout)) :=
  c3_mint_verify_round_trip mwEx 1000 "admin" "secret" _ [1, 2, 3]
    (by decide) (by decide) rfl (by decide) rfl

/-- C4: a successful refresh at clock reading `t0 + delta` (with
`delta` inside the window) of a claim set whose identity is `v` and
whose `orig_iat` is `t0` mints a token with the same identity,
`orig_iat = t0` unchanged, and `exp = t0 + delta + timeout`. -/
theorem c4_refresh_preserves (mw : JWTMiddleware) (t0 delta : Int)
    (claims : Claims) (v : ClaimValue)
    (hid : alGet claims "id" = some v)
    (hiat : alGet claims "orig_iat" = some (ClaimValue.num t0))
    (hwin : delta ≤ mw.maxRefresh) :
    ∃ tok, refreshWithClaims mw (t0 + delta) claims = .tokenResponse tok
      ∧ alGet tok.claims "id" = some v
      ∧ alGet tok.claims "orig_iat" = some (ClaimValue.num t0)
      ∧ alGet tok.claims "exp"
          = some (ClaimValue.num (t0 + delta + mw.timeout)) := by
  have hno : ¬ t0 < (t0 + delta) - mw.maxRefresh := by omega
  have hrun : refreshWithClaims mw (t0 + delta) claims
      = .tokenResponse
          { alg := mw.signingAlgorithm,
            claims :=
              alSet (alSet (alSet [] "id" ((alGet claims "id").getD ClaimValue.null))
                  "exp" (ClaimValue.num (t0 + delta + mw.timeout)))
                "orig_iat" (ClaimValue.num t0),
            sigKey := mw.key.getD [] } := by
    simp [refreshWithClaims, hiat, hno]
  refine ⟨_, hrun, ?_, ?_, ?_⟩
  · rw [hid]
    rw [alGet_alSet_other _ _ _ _ (by decide),
      alGet_alSet_other _ _ _ _ (by decide)]
    exact alGet_alSet_same _ _ _
  · exact alGet_alSet_same _ _ _
  · rw [alGet_alSet_other _ _ _ _ (by decide)]
    exact alGet_alSet_same _ _ _

/-- C4 witness: refreshing `claimsEx` (identity `"admin"`,
`orig_iat = 40`) at clock reading `90 = 40 + 50` under `mwEx`. -/
theorem c4_witness :
    ∃ tok, refreshWithClaims mwEx (40 + 50) claimsEx = .tokenResponse tok
      ∧ alGet tok.claims "id" = some (ClaimValue.str "admin")
      ∧ alGet tok.claims "orig_iat" = some (ClaimValue.num 40)
      ∧ alGet tok.claims "exp"
          = some (ClaimValue.num (40 + 50 + mwEx.timeout)) :=
  c4_refresh_preserves mwEx 40 50 claimsEx (ClaimValue.str "admin")
    rfl rfl (by decide)

/-- C6: the Auth Gate short-circuits — a failed parse/verify, or an
Authorization Check returning false, produces the unauthorized
outcome with the request untouched and the wrapped handler never
invoked; the handler is invoked only when parsing succeeded, the
identity is a string, and the Authorization Check accepted it. -/
theorem c6_gate_short_circuits (decode : String → Option SignedToken)
    (mw : JWTMiddleware) (now : Int) (req : Request)
    (authz : String → Request → Bool) (ha : mw.authorizator = some authz) :
    (∀ e, parseToken decode (mw.key.getD []) now req.authHeader = .error e →
        middlewareImpl decode mw now req = (.unauthorized, req))
    ∧ (∀ claims id,
        parseToken decode (mw.key.getD []) now req.authHeader = .ok claims →
        alGet claims "id" = some (ClaimValue.str id) → authz id req = false →
        middlewareImpl decode mw now req = (.unauthorized, req))
    ∧ (∀ id req', middlewareImpl decode mw now req = (.handled id, req') →
        ∃ claims,
          parseToken decode (mw.key.getD []) now req.authHeader = .ok claims
          ∧ alGet claims "id" = some (ClaimValue.str id)
          ∧ authz id req = true) := by
  refine ⟨?_, ?_, ?_⟩
  · intro e he
    simp [middlewareImpl, he]
  · intro claims id hp hid hf
    simp [middlewareImpl, hp, hid, ha, hf]
  · intro id req' h
    rcases hp : parseToken decode (mw.key.getD []) now req.authHeader with e | claims
    · simp [middlewareImpl, hp] at h
    · simp only [middlewareImpl, hp] at h
      rcases hid : alGet claims "id" with _ | v
      · simp [hid] at h
      · cases v with
        | str s =>
            rw [hid, ha] at h
            simp only [Option.getD_some] at h
            by_cases hb : authz s req = true
            · simp only [hb, if_true] at h
              have h1 : MWOutcome.handled s = MWOutcome.handled id :=
                congrArg Prod.fst h
              injection h1 with h2
              subst h2
              exact ⟨claims, rfl, hid, hb⟩
            · simp [hb] at h
        | num n => simp [hid] at h
        | null => simp [hid] at h

/-- C6 witness: a request with an empty authorization header is
rejected with the unauthorized outcome and an unchanged request. -/
theorem c6_witness :
    middlewareImpl decodeEx mwEx 0 { authHeader := "", env := [] }
      = (.unauthorized, { authHeader := "", env := [] }) :=
  (c6_gate_short_circuits decodeEx mwEx 0 { authHeader := "", env := [] }
    (fun _ _ => true) rfl).1 .missingOrMalformedHeader rfl

/-- C7: startup validation is fatal exactly when a required field
(realm, key, or authenticator) is missing, and a successful setup
never alters the required fields (defaulting touches only the
optional ones). -/
theorem c7_startup_validation (mw : JWTMiddleware) :
    ((middlewareFunc mw).isFatal = true ↔
      (mw.realm = "" ∨ mw.key.isNone = true ∨ mw.authenticator.isNone = true))
    ∧ (∀ mw', middlewareFunc mw = .ok mw' →
        mw'.realm = mw.realm ∧ mw'.key = mw.key
          ∧ mw'.authenticator = mw.authenticator) := by
  constructor
  · simp only [middlewareFunc]
    split_ifs <;> simp_all [SetupResult.isFatal]
  · intro mw' h
    simp only [middlewareFunc] at h
    split_ifs at h <;>
      first
        | exact SetupResult.noConfusion h
        | (injection h with h2; subst h2; exact ⟨rfl, rfl, rfl⟩)

/-- C7 witness: a configuration missing its key is fatal, and a fully
populated one passes setup with its required fields untouched. -/
theorem c7_witness :
    (middlewareFunc mwNoKey).isFatal = true
    ∧ (mwEx.realm = mwEx.realm ∧ mwEx.key = mwEx.key
        ∧ mwEx.authenticator = mwEx.authenticator) :=
  ⟨(c7_startup_validation mwNoKey).1.mpr (Or.inr (Or.inl rfl)),
   (c7_startup_validation mwEx).2 mwEx rfl⟩

/-- C9: one request step leaves the shared configuration exactly as it
was and changes the request environment at most at the key
`"REMOTE_USER"`. -/
theorem c9_request_scoped_effects (decode : String → Option SignedToken)
    (now : Int) (mw : JWTMiddleware) (req : Request) (k : String)
    (hk : k ≠ "REMOTE_USER") :
    (middlewareStep decode now (mw, req)).1.1 = mw
    ∧ alGet (middlewareStep decode now (mw, req)).1.2.env k
        = alGet req.env k := by
  refine ⟨rfl, ?_⟩
  rcases hp : parseToken decode (mw.key.getD []) now req.authHeader with e | claims
  · simp [middlewareStep, middlewareImpl, hp]
  · rcases hid : alGet claims "id" with _ | v
    · simp [middlewareStep, middlewareImpl, hp, hid]
    · cases v with
      | str s =>
          by_cases hb : (mw.authorizator.getD (fun _ _ => true)) s req = true
          · simp [middlewareStep, middlewareImpl, hp, hid, hb,
              alGet_alSet_other _ _ _ _ hk]
          · simp [middlewareStep, middlewareImpl, hp, hid, hb]
      | num n => simp [middlewareStep, middlewareImpl, hp, hid]
      | null => simp [middlewareStep, middlewareImpl, hp, hid]

/-- C9 witness: the step on a concrete request preserves the
configuration and every environment key other than
`"REMOTE_USER"`. -/
theorem c9_witness :
    (middlewareStep decodeEx 0 (mwEx, { authHeader := "Bearer tok", env := [] })).1.1 = mwEx
    ∧ alGet (middlewareStep decodeEx 0
          (mwEx, { authHeader := "Bearer tok", env := [] })).1.2.env "other"
        = alGet ({ authHeader := "Bearer tok", env := [] } : Request).env "other" :=
  c9_request_scoped_effects decodeEx 0 mwEx
    { authHeader := "Bearer tok", env := [] } "other" (by decide)

end AuthJWT
